import Mathlib

/-!
Shallow embedding of `src/agriculture_tokenization/src/lib.rs` (an Anchor/Solana
program) and proofs about its distribution and lot-registration logic.

Machine integers: `u64` values are modelled as `Nat`; the multiplication inside
`calculate_share` is modelled with an explicit `% 2 ^ 64` (the release-profile
wrapping semantics of Rust, the program has no overflow guard and no widening).
Rust integer division by zero always panics (aborting the Solana transaction),
so the division is modelled as an `Option`, `none` standing for that panic.
Fallible operations return `Except`/`Option`; an error return models the
transaction aborting with no persisted state and no observable event.
-/

/-- Error codes of the `AgricultureError` enum in the source. -/
inductive AgricultureError
  | insufficientYield
  | invalidHarvestTime
  | invalidRevenueAmount
  | invalidOwner
deriving DecidableEq

/-- `calculate_share` from the source:
`holder_amount * total_revenue / total_supply`, all three operands `u64`.
The multiplication wraps modulo `2 ^ 64` (no widening, no checked arithmetic in
the source); a zero `total_supply` makes the division panic at runtime, which we
model as `none`. -/
def calculate_share (holder_amount total_supply total_revenue : Nat) : Option Nat :=
  if total_supply = 0 then none
  else some (holder_amount * total_revenue % 2 ^ 64 / total_supply)

/-- The value `calculate_share` produces when the supply is nonzero. -/
def u64share (holder_amount total_supply total_revenue : Nat) : Nat :=
  holder_amount * total_revenue % 2 ^ 64 / total_supply

/-- One entry of `ctx.remaining_accounts` as `distribute_revenue` sees it:
`parseOk` is whether `Account::<TokenAccount>::try_from` succeeds, `amount` the
token balance it reports, and `transferOk` whether the ledger accepts the
`token::transfer` CPI aimed at this holder. -/
structure RemainingAccount where
  parseOk : Bool
  amount : Nat
  transferOk : Bool
deriving DecidableEq

/-- Terminal errors a `distribute_revenue` call can surface. `panicDivByZero`
models the Rust division-by-zero panic inside `calculate_share`. -/
inductive DistError
  | agri (e : AgricultureError)
  | holderDeserializeFailed
  | panicDivByZero
  | transferFailed
deriving DecidableEq

/-- Observable outcome of one `distribute_revenue` call: the transfer CPI calls
issued, in order, with their amounts (a failing call is the last one recorded);
whether the `RevenueDistributed` event was emitted; and the terminal error, if
any. -/
structure DistributeOutcome where
  calls : List Nat
  event : Bool
  error : Option DistError
deriving DecidableEq

/-- The per-holder loop of `distribute_revenue`: for each remaining account,
deserialize it, compute its share, and issue the transfer CPI; the first
failure aborts the loop. Returns the issued transfer amounts and the error. -/
def distributeLoop (total_supply total_revenue : Nat) :
    List RemainingAccount → List Nat × Option DistError
  | [] => ([], none)
  | a :: rest =>
    if a.parseOk = false then ([], some .holderDeserializeFailed)
    else
      match calculate_share a.amount total_supply total_revenue with
      | none => ([], some .panicDivByZero)
      | some share =>
        if a.transferOk = false then ([share], some .transferFailed)
        else
          let r := distributeLoop total_supply total_revenue rest
          (share :: r.1, r.2)

/-- `distribute_revenue` from the source. The `has_one = owner` constraint of
the `DistributeRevenue` accounts struct is checked by Anchor before the handler
body runs, so the caller/owner comparison comes first; then the
`total_revenue > 0` require; then the holder loop; the `RevenueDistributed`
event is emitted only after the whole loop succeeds. `lotOwner` is the stored
`lot.owner`, `caller` the signer supplied as `owner`. -/
def distribute_revenue (lotOwner caller total_revenue mint_supply : Nat)
    (remaining : List RemainingAccount) : DistributeOutcome :=
  if caller ≠ lotOwner then ⟨[], false, some (.agri .invalidOwner)⟩
  else if total_revenue = 0 then ⟨[], false, some (.agri .invalidRevenueAmount)⟩
  else
    match distributeLoop mint_supply total_revenue remaining with
    | (calls, some e) => ⟨calls, false, some e⟩
    | (calls, none) => ⟨calls, true, none⟩

/-- The `LotAccount` record of the source. `lot_name` is the byte encoding of
the string; pubkeys are abstract `Nat` identities. -/
structure LotAccount where
  owner : Nat
  lot_name : List Nat
  yield_estimate : Nat
  harvest_time : Int
  token_mint : Nat
deriving DecidableEq

/-- `LotAccount::MAX_SIZE` from the source: `8 + 32 + 40 + 8 + 8 + 32`. -/
def LotAccount.MAX_SIZE : Nat := 8 + 32 + 40 + 8 + 8 + 32

/-- The allocation the `init` attribute requests: `space = 8 + LotAccount::MAX_SIZE`. -/
def lotAccountSpace : Nat := 8 + LotAccount.MAX_SIZE

/-- Borsh-serialized size of a `LotAccount`: 32-byte owner pubkey, a string as
a 4-byte length prefix plus its bytes, `u64`, `i64`, and a 32-byte mint pubkey.
Anchor writes an 8-byte discriminator before this; the write fails when
`8 + borshLotSize` exceeds the allocated `lotAccountSpace`. -/
def borshLotSize (lot : LotAccount) : Nat :=
  32 + (4 + lot.lot_name.length) + 8 + 8 + 32

/-- Failure modes of `initialize_lot`: the Anchor `init` constraint rejects an
already-existing account at the derived address; the two `require!` gates; and
the end-of-instruction serialization failing because the record does not fit
the allocated space. -/
inductive InitError
  | alreadyInUse
  | agri (e : AgricultureError)
  | accountDidNotSerialize
deriving DecidableEq

deriving instance DecidableEq for Except

/-- The `LotInitialized` event of the source. -/
structure LotInitialized where
  lot_name : List Nat
  owner : Nat
  yield_estimate : Nat
  harvest_time : Int
deriving DecidableEq

/-- `initialize_lot` from the source. Anchor's `init` constraint (account must
not already exist at the PDA) runs before the handler; then
`require!(yield_estimate > 0)`, then `require!(harvest_time > now)`; the handler
fills the record and emits `LotInitialized`; finally Anchor serializes the
record into the allocated space, failing when it does not fit. An `.error`
result models the transaction aborting: no lot record persists and no event is
observed. -/
def initialize_lot (lotExists : Bool) (farmer token_mint : Nat) (lot_name : List Nat)
    (yield_estimate : Nat) (harvest_time now : Int) :
    Except InitError (LotAccount × LotInitialized) :=
  if lotExists then .error .alreadyInUse
  else if yield_estimate = 0 then .error (.agri .insufficientYield)
  else if harvest_time ≤ now then .error (.agri .invalidHarvestTime)
  else
    let lot : LotAccount := ⟨farmer, lot_name, yield_estimate, harvest_time, token_mint⟩
    if lotAccountSpace < 8 + borshLotSize lot then .error .accountDidNotSerialize
    else .ok (lot, ⟨lot_name, farmer, yield_estimate, harvest_time⟩)

-- ------------------- HELPER LEMMAS -------------------

/-- With a nonzero supply, `calculate_share` returns the wrapped quotient. -/
theorem calculate_share_of_pos {S : Nat} (b R : Nat) (hS : S ≠ 0) :
    calculate_share b S R = some (u64share b S R) := by
  simp [calculate_share, u64share, hS]

/-- The wrapped share never exceeds the exact mathematical share. -/
theorem u64share_le_exact (b S R : Nat) : u64share b S R ≤ b * R / S :=
  Nat.div_le_div_right (Nat.mod_le _ _)

/-- Summing per-term quotients stays below the quotient of the sum. -/
theorem sum_map_div_le (S R : Nat) (bs : List Nat) :
    (bs.map fun b => b * R / S).sum ≤ bs.sum * R / S := by
  induction bs with
  | nil => simp
  | cons b rest ih =>
    simp only [List.map_cons, List.sum_cons, List.sum_cons, Nat.add_mul]
    exact le_trans (Nat.add_le_add_left ih _) (Nat.add_div_le_add_div _ _ _)

/-- Scaling a list sum. -/
theorem sum_map_mul (R : Nat) (bs : List Nat) :
    (bs.map fun b => b * R).sum = bs.sum * R := by
  induction bs with
  | nil => simp
  | cons b rest ih => simp [ih, Nat.add_mul]

/-- Division/remainder decomposition summed over a list. -/
theorem sum_div_add_mod (S R : Nat) (bs : List Nat) :
    S * (bs.map fun b => b * R / S).sum + (bs.map fun b => b * R % S).sum =
      (bs.map fun b => b * R).sum := by
  induction bs with
  | nil => simp
  | cons b rest ih =>
    simp only [List.map_cons, List.sum_cons, Nat.mul_add]
    calc S * (b * R / S) + S * (rest.map fun b => b * R / S).sum +
        (b * R % S + (rest.map fun b => b * R % S).sum)
        = (S * (b * R / S) + b * R % S) +
          (S * (rest.map fun b => b * R / S).sum + (rest.map fun b => b * R % S).sum) := by
          ring
      _ = b * R + (rest.map fun b => b * R).sum := by
          rw [ih, Nat.mul_comm S, Nat.div_add_mod']

/-- When every remaining account deserializes and every transfer succeeds, the
loop issues exactly one transfer per holder, in order, with the wrapped share. -/
theorem distributeLoop_all_ok {S : Nat} (R : Nat) (hS : S ≠ 0)
    (accts : List RemainingAccount)
    (hok : ∀ a ∈ accts, a.parseOk = true ∧ a.transferOk = true) :
    distributeLoop S R accts = (accts.map fun a => u64share a.amount S R, none) := by
  induction accts with
  | nil => simp [distributeLoop]
  | cons a rest ih =>
    have ha := hok a (List.mem_cons_self a rest)
    have hrest := fun b hb => hok b (List.mem_cons_of_mem a hb)
    simp [distributeLoop, ha.1, ha.2, calculate_share_of_pos _ _ hS, ih hrest]

/-- The loop stops at the first holder whose transfer fails: the failing call is
the last one issued, and no later holder is reached. -/
theorem distributeLoop_transfer_fails {S : Nat} (R : Nat) (hS : S ≠ 0)
    (pre : List RemainingAccount) (a : RemainingAccount) (post : List RemainingAccount)
    (hpre : ∀ b ∈ pre, b.parseOk = true ∧ b.transferOk = true)
    (hparse : a.parseOk = true) (hfail : a.transferOk = false) :
    distributeLoop S R (pre ++ a :: post) =
      ((pre.map fun b => u64share b.amount S R) ++ [u64share a.amount S R],
        some .transferFailed) := by
  induction pre with
  | nil =>
    simp [distributeLoop, hparse, hfail, calculate_share_of_pos _ _ hS]
  | cons b rest ih =>
    have hb := hpre b (List.mem_cons_self b rest)
    have hrest := fun c hc => hpre c (List.mem_cons_of_mem b hc)
    simp [distributeLoop, hb.1, hb.2, calculate_share_of_pos _ _ hS, ih hrest]

/-- A list of naturals summing to zero is all zeros. -/
theorem eq_zero_of_mem_of_sum_eq_zero {l : List Nat} (h : l.sum = 0) :
    ∀ x ∈ l, x = 0 := by
  induction l with
  | nil => simp
  | cons a rest ih =>
    simp only [List.sum_cons] at h
    intro x hx
    rcases List.mem_cons.mp hx with rfl | hx
    · omega
    · exact ih (by omega) x hx

/-- Shared success case of `initialize_lot`: all gates pass and the record fits
the allocated space. -/
theorem initialize_lot_ok (f m : Nat) (name : List Nat) (y : Nat) (ht now : Int)
    (hy : y ≠ 0) (hht : now < ht) (hlen : name.length ≤ 44) :
    initialize_lot false f m name y ht now =
      .ok (⟨f, name, y, ht, m⟩, ⟨name, f, y, ht⟩) := by
  have h1 : ¬ ht ≤ now := not_le.mpr hht
  have h2 : ¬ (lotAccountSpace < 8 + borshLotSize ⟨f, name, y, ht, m⟩) := by
    simp only [lotAccountSpace, LotAccount.MAX_SIZE, borshLotSize]
    omega
  simp [initialize_lot, hy, h1, h2]

-- ------------------- CLAIM THEOREMS -------------------

/-- Claim C1: conservation of distributed revenue. For any revenue `R > 0`,
supply `S > 0`, and holder balances summing to at most `S`, the shares computed
by `calculate_share` are defined (no panic), their sum never exceeds `R`, and
the sum can equal `R` only when `S` divides every exact product `b * R`. -/
theorem calculate_share_conservation (S R : Nat) (bs : List Nat)
    (hS : S ≠ 0) (hR : R ≠ 0) (hsum : bs.sum ≤ S) :
    (∀ b ∈ bs, calculate_share b S R = some (u64share b S R)) ∧
    (bs.map fun b => u64share b S R).sum ≤ R ∧
    ((bs.map fun b => u64share b S R).sum = R → ∀ b ∈ bs, b * R % S = 0) := by
  have hS0 : 0 < S := Nat.pos_of_ne_zero hS
  have hsum_w_le : (bs.map fun b => u64share b S R).sum ≤
      (bs.map fun b => b * R / S).sum :=
    List.sum_le_sum fun b _ => u64share_le_exact b S R
  have hexact_le : (bs.map fun b => b * R / S).sum ≤ R :=
    calc (bs.map fun b => b * R / S).sum ≤ bs.sum * R / S := sum_map_div_le S R bs
      _ ≤ S * R / S := Nat.div_le_div_right (Nat.mul_le_mul_right R hsum)
      _ = R := Nat.mul_div_cancel_left R hS0
  refine ⟨fun b _ => calculate_share_of_pos b R hS, le_trans hsum_w_le hexact_le, ?_⟩
  intro heq b hb
  have hexact_eq : (bs.map fun b => b * R / S).sum = R := by
    exact le_antisymm hexact_le (heq.symm.trans_le hsum_w_le)
  have hid := sum_div_add_mod S R bs
  rw [hexact_eq, sum_map_mul] at hid
  have hle : bs.sum * R ≤ S * R := Nat.mul_le_mul_right R hsum
  have hmods : (bs.map fun b => b * R % S).sum = 0 := by omega
  exact eq_zero_of_mem_of_sum_eq_zero hmods _ (List.mem_map_of_mem _ hb)

/-- Witness for C1 at `S = 3`, `R = 10`, balances `[1, 2]`. -/
theorem calculate_share_conservation_witness :
    (3 : Nat) ≠ 0 ∧ (10 : Nat) ≠ 0 ∧ ([1, 2] : List Nat).sum ≤ 3 ∧
    ((([1, 2] : List Nat).map fun b => u64share b 3 10).sum ≤ 10 ∧
      ((([1, 2] : List Nat).map fun b => u64share b 3 10).sum = 10 →
        ∀ b ∈ ([1, 2] : List Nat), b * 10 % 3 = 0)) :=
  ⟨by decide, by decide, by decide,
    (calculate_share_conservation 3 10 [1, 2] (by decide) (by decide) (by decide)).2⟩

/-- Claim C3: when the exact product `b * R` reaches `2 ^ 64`, the share the
code returns is the wrapped quotient and differs from the exact mathematical
floor. -/
theorem calculate_share_overflow_wraps (b S R : Nat) (hS : S ≠ 0)
    (hS64 : S < 2 ^ 64) (hov : 2 ^ 64 ≤ b * R) :
    calculate_share b S R = some (b * R % 2 ^ 64 / S) ∧
    b * R % 2 ^ 64 / S ≠ b * R / S := by
  have hS0 : 0 < S := Nat.pos_of_ne_zero hS
  refine ⟨calculate_share_of_pos b R hS, Nat.ne_of_lt ?_⟩
  have h1 : 2 ^ 64 + b * R % 2 ^ 64 ≤ b * R := by
    have hq : 1 ≤ b * R / 2 ^ 64 :=
      (Nat.one_le_div_iff (by positivity)).mpr hov
    have hqm : 2 ^ 64 * 1 ≤ 2 ^ 64 * (b * R / 2 ^ 64) :=
      Nat.mul_le_mul_left _ hq
    have hdm : 2 ^ 64 * (b * R / 2 ^ 64) + b * R % 2 ^ 64 = b * R :=
      Nat.div_add_mod _ _
    omega
  calc b * R % 2 ^ 64 / S
      < b * R % 2 ^ 64 / S + 1 := Nat.lt_succ_self _
    _ ≤ b * R % 2 ^ 64 / S + 2 ^ 64 / S := by
        have : 1 ≤ 2 ^ 64 / S := (Nat.one_le_div_iff hS0).mpr (le_of_lt hS64)
        omega
    _ ≤ (b * R % 2 ^ 64 + 2 ^ 64) / S := Nat.add_div_le_add_div _ _ _
    _ ≤ b * R / S := Nat.div_le_div_right (by omega)

/-- Witness for C3 at `b = 2 ^ 32`, `R = 2 ^ 32`, `S = 3`. -/
theorem calculate_share_overflow_wraps_witness :
    (3 : Nat) ≠ 0 ∧ (3 : Nat) < 2 ^ 64 ∧ 2 ^ 64 ≤ 2 ^ 32 * 2 ^ 32 ∧
    (calculate_share (2 ^ 32) 3 (2 ^ 32) = some (2 ^ 32 * 2 ^ 32 % 2 ^ 64 / 3) ∧
      2 ^ 32 * 2 ^ 32 % 2 ^ 64 / 3 ≠ 2 ^ 32 * 2 ^ 32 / 3) :=
  ⟨by decide, by norm_num, by norm_num,
    calculate_share_overflow_wraps (2 ^ 32) 3 (2 ^ 32) (by decide) (by norm_num)
      (by norm_num)⟩

/-- Claim C2 (code evaluation at the failing input): with `total_supply = 0`
the share computation in the code reaches an unguarded division by zero — there
is no explicit zero-supply error before it. `calculate_share 5 0 1` hits the
panicking division, and the whole `distribute_revenue` call aborts with that
panic rather than with one of the program's explicit error codes. -/
theorem distribute_revenue_zero_supply_panics :
    calculate_share 5 0 1 = none ∧
    distribute_revenue 1 1 1 0 [⟨true, 5, true⟩] =
      ⟨[], false, some .panicDivByZero⟩ := by
  constructor <;> decide

/-- Claim C4 counterexample: with supply `2 ^ 32`, one holder of balance
`2 ^ 32`, and revenue `2 ^ 32`, the code pays the holder `0`, while
`floor(balance * revenue / supply) = 2 ^ 32`; so "distribute pays every holder
exactly the mathematical floor" fails as stated. -/
theorem distribute_revenue_overflow_cex :
    (distribute_revenue 1 1 (2 ^ 32) (2 ^ 32) [⟨true, 2 ^ 32, true⟩]).calls = [0] ∧
    2 ^ 32 * 2 ^ 32 / 2 ^ 32 = 2 ^ 32 ∧ (0 : Nat) ≠ 2 ^ 32 := by
  refine ⟨by decide, by norm_num, by norm_num⟩

/-- Claim C4 (amended): whenever the exact product `b * R` fits in 64 bits and
the supply is nonzero, `calculate_share` returns exactly the truncating
quotient `b * R / S`; and in the concrete rounding scenario (supply 3, three
holders of balance 1, revenue 10) each holder is paid `floor(10 / 3) = 3`, the
event fires, and `10 - 9 = 1` unit of dust is left undistributed. -/
theorem calculate_share_floor_and_rounding_scenario :
    (∀ b S R : Nat, S ≠ 0 → b * R < 2 ^ 64 →
      calculate_share b S R = some (b * R / S)) ∧
    distribute_revenue 1 1 10 3 [⟨true, 1, true⟩, ⟨true, 1, true⟩, ⟨true, 1, true⟩] =
      ⟨[3, 3, 3], true, none⟩ ∧
    10 - (3 + 3 + 3) = 1 := by
  refine ⟨fun b S R hS hlt => ?_, by decide, by decide⟩
  rw [calculate_share_of_pos b R hS]
  show some (b * R % 2 ^ 64 / S) = some (b * R / S)
  rw [Nat.mod_eq_of_lt hlt]

/-- Witness for C4 (amended) at `b = 1`, `S = 3`, `R = 10`. -/
theorem calculate_share_floor_and_rounding_scenario_witness :
    (3 : Nat) ≠ 0 ∧ (1 * 10 : Nat) < 2 ^ 64 ∧ calculate_share 1 3 10 = some 3 :=
  ⟨by decide, by norm_num,
    (calculate_share_floor_and_rounding_scenario.1 1 3 10 (by decide)
      (by norm_num)).trans (by decide)⟩

/-- Claim C5: whenever the supplied signer differs from the stored `lot.owner`,
`distribute_revenue` fails with `InvalidOwner` before any transfer and before
any other side effect: no transfer call is issued and no event is emitted,
whatever the revenue, supply, and holder list. -/
theorem distribute_revenue_unauthorized (lotOwner caller R S : Nat)
    (accts : List RemainingAccount) (h : caller ≠ lotOwner) :
    distribute_revenue lotOwner caller R S accts =
      ⟨[], false, some (.agri .invalidOwner)⟩ := by
  simp [distribute_revenue, h]

/-- Witness for C5: caller `2` against owner `1`, even with zero revenue. -/
theorem distribute_revenue_unauthorized_witness :
    (2 : Nat) ≠ 1 ∧
    distribute_revenue 1 2 0 10 [⟨true, 3, true⟩] =
      ⟨[], false, some (.agri .invalidOwner)⟩ :=
  ⟨by decide, distribute_revenue_unauthorized 1 2 0 10 [⟨true, 3, true⟩] (by decide)⟩

/-- Claim C6: a failing holder transfer terminates `distribute_revenue`
immediately — the failing call is the last one issued, no later holder in the
snapshot is reached, and no `RevenueDistributed` event is emitted; when every
deserialization and transfer succeeds, the event is emitted (exactly once, the
model sets it only after the whole loop) and each holder got exactly one call. -/
theorem distribute_revenue_abort_and_event_order :
    (∀ (o R S : Nat) (pre : List RemainingAccount) (a : RemainingAccount)
        (post : List RemainingAccount), R ≠ 0 → S ≠ 0 →
        (∀ b ∈ pre, b.parseOk = true ∧ b.transferOk = true) →
        a.parseOk = true → a.transferOk = false →
        distribute_revenue o o R S (pre ++ a :: post) =
          ⟨(pre.map fun b => u64share b.amount S R) ++ [u64share a.amount S R],
            false, some .transferFailed⟩) ∧
    (∀ (o R S : Nat) (accts : List RemainingAccount), R ≠ 0 → S ≠ 0 →
        (∀ b ∈ accts, b.parseOk = true ∧ b.transferOk = true) →
        distribute_revenue o o R S accts =
          ⟨accts.map fun a => u64share a.amount S R, true, none⟩) := by
  constructor
  · intro o R S pre a post hR hS hpre hparse hfail
    simp [distribute_revenue, hR,
      distributeLoop_transfer_fails R hS pre a post hpre hparse hfail]
  · intro o R S accts hR hS hok
    simp [distribute_revenue, hR, distributeLoop_all_ok R hS accts hok]

/-- Witness for C6: supply 10, revenue 10; the second holder's transfer fails,
so only calls `[4, 6]` are issued (the failing one last), the third holder gets
nothing and no event fires; with the failure removed every holder is paid and
the event fires. -/
theorem distribute_revenue_abort_and_event_order_witness :
    distribute_revenue 1 1 10 10
        [⟨true, 4, true⟩, ⟨true, 6, false⟩, ⟨true, 2, true⟩] =
      ⟨[4, 6], false, some .transferFailed⟩ ∧
    distribute_revenue 1 1 10 10 [⟨true, 4, true⟩, ⟨true, 6, true⟩] =
      ⟨[4, 6], true, none⟩ :=
  ⟨(distribute_revenue_abort_and_event_order.1 1 10 10 [⟨true, 4, true⟩]
      ⟨true, 6, false⟩ [⟨true, 2, true⟩] (by decide) (by decide) (by decide)
      rfl rfl).trans (by decide),
   (distribute_revenue_abort_and_event_order.2 1 10 10
      [⟨true, 4, true⟩, ⟨true, 6, true⟩] (by decide) (by decide)
      (by decide)).trans (by decide)⟩

/-- Claim C10: zero-share holders are not skipped — in a run where every
deserialization and transfer succeeds, the list of issued transfer calls is
exactly one call per holder of the snapshot, in snapshot order, carrying that
holder's computed share (which may be `0`). -/
theorem distribute_revenue_zero_share_not_skipped (o R S : Nat)
    (accts : List RemainingAccount) (hR : R ≠ 0) (hS : S ≠ 0)
    (hok : ∀ a ∈ accts, a.parseOk = true ∧ a.transferOk = true) :
    (distribute_revenue o o R S accts).calls =
      accts.map fun a => u64share a.amount S R := by
  simp [distribute_revenue, hR, distributeLoop_all_ok R hS accts hok]

/-- Witness for C10: supply 10, revenue 5; the first holder's share is
`0 * 5 / 10 = 0` and it still gets a transfer call of amount 0, in order before
the second holder's call of amount 2. -/
theorem distribute_revenue_zero_share_not_skipped_witness :
    (distribute_revenue 1 1 5 10 [⟨true, 0, true⟩, ⟨true, 4, true⟩]).calls = [0, 2] ∧
    u64share 0 10 5 = 0 :=
  ⟨(distribute_revenue_zero_share_not_skipped 1 5 10
      [⟨true, 0, true⟩, ⟨true, 4, true⟩] (by decide) (by decide)
      (by decide)).trans (by decide), by decide⟩

/-- Claim C7 counterexample: a 41-byte name — strictly over the claimed 40-byte
bound — is accepted: the serialized record (32 + 4 + 41 + 8 + 8 + 32 = 125
bytes plus the 8-byte discriminator) still fits the allocated 136 bytes, so
creation succeeds instead of failing. -/
theorem initialize_lot_41_byte_name_cex :
    (List.replicate 41 0).length = 41 ∧
    initialize_lot false 1 2 (List.replicate 41 0) 1 1 0 =
      .ok (⟨1, List.replicate 41 0, 1, 1, 2⟩, ⟨List.replicate 41 0, 1, 1, 1⟩) := by
  constructor <;> decide

/-- Claim C7 (amended): there is no explicit name-length check; the Lot account
is allocated a fixed `lotAccountSpace = 136` bytes (8-byte discriminator plus
`MAX_SIZE = 128`, which budgets 40 bytes for the name but double-counts an
8-byte discriminator and omits the 4-byte string length prefix), so the
effective bound is 44 encoded bytes: with the other gates passing, a name of at
most 44 bytes is accepted, and any name of 45 bytes or more makes creation
fail — with the serialization error when the other gates pass. -/
theorem initialize_lot_name_size_gate :
    lotAccountSpace = 136 ∧
    (∀ (f m : Nat) (name : List Nat) (y : Nat) (ht now : Int),
      y ≠ 0 → now < ht → name.length ≤ 44 →
      initialize_lot false f m name y ht now =
        .ok (⟨f, name, y, ht, m⟩, ⟨name, f, y, ht⟩)) ∧
    (∀ (ex : Bool) (f m : Nat) (name : List Nat) (y : Nat) (ht now : Int),
      45 ≤ name.length → ∃ e, initialize_lot ex f m name y ht now = .error e) ∧
    (∀ (f m : Nat) (name : List Nat) (y : Nat) (ht now : Int),
      45 ≤ name.length → y ≠ 0 → now < ht →
      initialize_lot false f m name y ht now = .error .accountDidNotSerialize) := by
  refine ⟨by decide, fun f m name y ht now hy hht hlen =>
    initialize_lot_ok f m name y ht now hy hht hlen, ?_, ?_⟩
  · intro ex f m name y ht now hlen
    cases ex with
    | true => exact ⟨.alreadyInUse, by simp [initialize_lot]⟩
    | false =>
      by_cases hy : y = 0
      · exact ⟨.agri .insufficientYield, by simp [initialize_lot, hy]⟩
      · by_cases hht : ht ≤ now
        · exact ⟨.agri .invalidHarvestTime, by simp [initialize_lot, hy, hht]⟩
        · refine ⟨.accountDidNotSerialize, ?_⟩
          have hsz : lotAccountSpace <
              8 + borshLotSize ⟨f, name, y, ht, m⟩ := by
            simp only [lotAccountSpace, LotAccount.MAX_SIZE, borshLotSize]
            omega
          simp [initialize_lot, hy, hht, hsz]
  · intro f m name y ht now hlen hy hht
    have h1 : ¬ ht ≤ now := not_le.mpr hht
    have hsz : lotAccountSpace < 8 + borshLotSize ⟨f, name, y, ht, m⟩ := by
      simp only [lotAccountSpace, LotAccount.MAX_SIZE, borshLotSize]
      omega
    simp [initialize_lot, hy, h1, hsz]

/-- Witness for C7 (amended): a 44-byte name is accepted, a 45-byte name is
rejected with the serialization failure. -/
theorem initialize_lot_name_size_gate_witness :
    initialize_lot false 1 2 (List.replicate 44 0) 1 1 0 =
      .ok (⟨1, List.replicate 44 0, 1, 1, 2⟩, ⟨List.replicate 44 0, 1, 1, 1⟩) ∧
    initialize_lot false 1 2 (List.replicate 45 0) 1 1 0 =
      .error .accountDidNotSerialize :=
  ⟨initialize_lot_name_size_gate.2.1 1 2 (List.replicate 44 0) 1 1 0
      (by decide) (by decide) (by decide),
   initialize_lot_name_size_gate.2.2.2 1 2 (List.replicate 45 0) 1 1 0
      (by decide) (by decide) (by decide)⟩

/-- Claim C8 counterexample: (a) a `register` call with `yield_estimate = 0`
against an already-occupied derived address fails with the already-in-use
error, not with `InsufficientYield`; (b) a call with `yield_estimate = 1`, a
future harvest time, and a free derived address still fails when the name is
45 bytes long — so neither half of the claim holds for every call. -/
theorem initialize_lot_yield_gate_cex :
    (initialize_lot true 1 2 [0] 0 5 0 = .error .alreadyInUse ∧
      InitError.alreadyInUse ≠ .agri .insufficientYield) ∧
    initialize_lot false 1 2 (List.replicate 45 0) 1 5 0 =
      .error .accountDidNotSerialize := by
  exact ⟨⟨by decide, by decide⟩, by decide⟩

/-- Claim C8 (amended): with no existing Lot at the derived address,
`register` with `yield_estimate = 0` always fails with `InsufficientYield`
(whatever the harvest time); and with `yield_estimate = 1`, any harvest time
strictly later than the clock reading, and a name of at most 44 encoded bytes,
the call always succeeds. -/
theorem initialize_lot_yield_gate :
    (∀ (f m : Nat) (name : List Nat) (ht now : Int),
      initialize_lot false f m name 0 ht now = .error (.agri .insufficientYield)) ∧
    (∀ (f m : Nat) (name : List Nat) (ht now : Int), now < ht → name.length ≤ 44 →
      initialize_lot false f m name 1 ht now =
        .ok (⟨f, name, 1, ht, m⟩, ⟨name, f, 1, ht⟩)) := by
  refine ⟨fun f m name ht now => by simp [initialize_lot], ?_⟩
  intro f m name ht now hht hlen
  exact initialize_lot_ok f m name 1 ht now (by decide) hht hlen

/-- Witness for C8 (amended) at concrete inputs. -/
theorem initialize_lot_yield_gate_witness :
    initialize_lot false 1 2 [0] 0 5 0 = .error (.agri .insufficientYield) ∧
    initialize_lot false 1 2 [0] 1 5 0 = .ok (⟨1, [0], 1, 5, 2⟩, ⟨[0], 1, 1, 5⟩) :=
  ⟨initialize_lot_yield_gate.1 1 2 [0] 5 0,
   initialize_lot_yield_gate.2 1 2 [0] 5 0 (by decide) (by decide)⟩

/-- Claim C9 counterexample: a `register` call with `harvest_time = 0 ≤ now = 0`
but also `yield_estimate = 0` fails with `InsufficientYield`, not with
`InvalidHarvestTime` — the yield gate runs first. -/
theorem initialize_lot_harvest_gate_cex :
    initialize_lot false 1 2 [0] 0 0 0 = .error (.agri .insufficientYield) ∧
    InitError.agri .insufficientYield ≠ .agri .invalidHarvestTime := by
  exact ⟨by decide, by decide⟩

/-- Claim C9 (amended): every `register` call with `harvest_time ≤ now` fails —
no Lot record is created and no `LotInitialized` event is emitted — and the
error is `InvalidHarvestTime` whenever the two checks that run first pass,
i.e. `yield_estimate > 0` and no Lot already at the derived address. -/
theorem initialize_lot_harvest_gate :
    (∀ (ex : Bool) (f m : Nat) (name : List Nat) (y : Nat) (ht now : Int),
      ht ≤ now → ∃ e, initialize_lot ex f m name y ht now = .error e) ∧
    (∀ (f m : Nat) (name : List Nat) (y : Nat) (ht now : Int),
      ht ≤ now → y ≠ 0 →
      initialize_lot false f m name y ht now =
        .error (.agri .invalidHarvestTime)) := by
  constructor
  · intro ex f m name y ht now hht
    cases ex with
    | true => exact ⟨.alreadyInUse, by simp [initialize_lot]⟩
    | false =>
      by_cases hy : y = 0
      · exact ⟨.agri .insufficientYield, by simp [initialize_lot, hy]⟩
      · exact ⟨.agri .invalidHarvestTime, by simp [initialize_lot, hy, hht]⟩
  · intro f m name y ht now hht hy
    simp [initialize_lot, hy, hht]

/-- Witness for C9 (amended): `harvest_time = 0`, `now = 5`. -/
theorem initialize_lot_harvest_gate_witness :
    (∃ e, initialize_lot true 1 2 [0] 0 0 5 = .error e) ∧
    initialize_lot false 1 2 [0] 1 0 5 = .error (.agri .invalidHarvestTime) :=
  ⟨initialize_lot_harvest_gate.1 true 1 2 [0] 0 0 5 (by decide),
   initialize_lot_harvest_gate.2 1 2 [0] 1 0 5 (by decide) (by decide)⟩
